import Mathlib

/-!
Verification development for the EVM auto-transfer bot (`src/index.js`).

The source is a single JavaScript file.  The core engine is embedded
shallowly: RPC calls (balance reads, transfer submission, confirmation,
block-height and log queries, token-metadata lookups) are modelled as
oracle records whose `Option`-valued fields are `none` exactly when the
underlying call throws; the `try/catch` structure of each function is
mirrored by matching on those options.  State (`processedTxs`,
`lastCheckedBlock`) is passed explicitly, and side effects (console
reporting aside) are recorded as an ordered event list, matching the
logically single-threaded flow of one network monitor.
-/

/-- Result of `transferToken` (src/index.js lines 68-105): the boolean the
function returns, plus whether a transfer transaction was actually
submitted (`tokenContract.transfer` reached and succeeded) and whether its
confirmation (`tx.wait()`) completed. -/
structure SweepOutcome where
  ret : Bool
  submitted : Bool
  confirmed : Bool
deriving DecidableEq

/-- Oracle for the chain calls `transferToken` makes: `balanceOf` is the
balance read (`none` when the read throws), `submitTransfer` the submitted
transaction hash (`none` when `transfer` throws before submission), and
`waitOk` whether `tx.wait()` succeeds. -/
structure ChainOracle where
  balanceOf : Option Nat
  submitTransfer : Option String
  waitOk : Bool

/-- `transferToken` (src/index.js lines 68-105): read the wallet balance;
return `false` when it is exactly zero (line 73); otherwise submit a
transfer of the full balance and await confirmation, returning `true`;
any thrown error is caught and converted to `false` (lines 97-104). -/
def transferToken (o : ChainOracle) : SweepOutcome :=
  match o.balanceOf with
  | none => { ret := false, submitted := false, confirmed := false }
  | some balance =>
    if balance = 0 then { ret := false, submitted := false, confirmed := false }
    else
      match o.submitTransfer with
      | none => { ret := false, submitted := false, confirmed := false }
      | some _ =>
        if o.waitOk then { ret := true, submitted := true, confirmed := true }
        else { ret := false, submitted := true, confirmed := false }

/-- Token metadata as returned by `getTokenDetails` (src/index.js lines
52-66). -/
structure TokenDetails where
  symbol : String
  decimals : Nat
  name : String
deriving DecidableEq

/-- Oracle for the three metadata lookups of `getTokenDetails`:
`contractOk` is whether constructing the contract binding succeeds (the
outer `try`), and each field is `none` exactly when that lookup throws. -/
structure DetailOracle where
  contractOk : Bool
  symbol : Option String
  decimals : Option Nat
  name : Option String

/-- `getTokenDetails` (src/index.js lines 52-66): the three lookups run
with a per-field `.catch` substituting `"UNKNOWN"`, `18` and
`"Unknown Token"`; the outer `catch` yields all three defaults. -/
def getTokenDetails (o : DetailOracle) : TokenDetails :=
  if o.contractOk then
    { symbol := o.symbol.getD ("UNKNOWN")
      decimals := o.decimals.getD 18
      name := o.name.getD ("Unknown Token") }
  else { symbol := ("UNKNOWN"), decimals := 18, name := ("Unknown Token") }

/-- A concrete chain oracle whose balance read returns zero while the
later steps would succeed. -/
def zeroBalanceOracle : ChainOracle :=
  { balanceOf := some 0, submitTransfer := some ("0xabc"), waitOk := true }

/-- Claim C1: for every token whose `balanceOf` read returns exactly zero,
`transferToken` returns the no-op result `false` and submits no transfer
transaction. -/
theorem transferToken_zero_balance_noop (o : ChainOracle)
    (h : o.balanceOf = some 0) :
    (transferToken o).ret = false ∧ (transferToken o).submitted = false := by
  simp [transferToken, h]

/-- Witness for C1: a concrete oracle reporting a zero balance. -/
theorem transferToken_zero_balance_noop_witness :
    (transferToken zeroBalanceOracle).ret = false ∧
    (transferToken zeroBalanceOracle).submitted = false :=
  transferToken_zero_balance_noop zeroBalanceOracle rfl

/-- Claim C9: `transferToken` returns `false` both on a zero balance and on
any failed step, so the caller cannot tell the two apart from the return
value; it returns `true` exactly when a transfer was submitted and
confirmed. -/
theorem transferToken_false_ambiguous (o : ChainOracle) :
    ((transferToken o).ret = true ↔
      (transferToken o).submitted = true ∧ (transferToken o).confirmed = true) ∧
    (o.balanceOf = some 0 → (transferToken o).ret = false) ∧
    ((o.balanceOf = none ∨ o.submitTransfer = none ∨ o.waitOk = false) →
      (transferToken o).ret = false) := by
  obtain ⟨b, t, w⟩ := o
  cases b with
  | none => simp [transferToken]
  | some n =>
    by_cases hn : n = 0
    · subst hn
      simp [transferToken]
    · cases t with
      | none => simp [transferToken, hn]
      | some tx => cases w <;> simp [transferToken, hn]

/-- A detail oracle on which every lookup fails. -/
def allFailDetailOracle : DetailOracle :=
  { contractOk := true, symbol := none, decimals := none, name := none }

/-- The details `getTokenDetails` falls back to (src/index.js line 64). -/
def defaultTokenDetails : TokenDetails :=
  { symbol := ("UNKNOWN"), decimals := 18, name := ("Unknown Token") }

/-- Claim C5: the three metadata lookups are independent with per-field
substitution — when exactly the symbol lookup fails the result is
`UNKNOWN` with decimals and name as returned by the chain; the documented
defaults are `UNKNOWN`, `18`, `Unknown Token`; and for every oracle each
field is either the looked-up value or its default, so no combination of
lookup failures makes `getTokenDetails` itself fail. -/
theorem getTokenDetails_per_field_defaults :
    (∀ o : DetailOracle, ∀ d : Nat, ∀ n : String,
      o.contractOk = true → o.symbol = none → o.decimals = some d →
      o.name = some n →
      getTokenDetails o = { symbol := ("UNKNOWN"), decimals := d, name := n }) ∧
    (getTokenDetails allFailDetailOracle = defaultTokenDetails) ∧
    (∀ o : DetailOracle,
      ((getTokenDetails o).symbol = ("UNKNOWN") ∨
        o.symbol = some (getTokenDetails o).symbol) ∧
      ((getTokenDetails o).decimals = 18 ∨
        o.decimals = some (getTokenDetails o).decimals) ∧
      ((getTokenDetails o).name = ("Unknown Token") ∨
        o.name = some (getTokenDetails o).name)) := by
  refine ⟨?_, by simp [getTokenDetails, allFailDetailOracle, defaultTokenDetails], ?_⟩
  · intro o d n hok hs hd hn
    simp [getTokenDetails, hok, hs, hd, hn]
  · intro o
    obtain ⟨ok, s, d, n⟩ := o
    cases ok <;> cases s <;> cases d <;> cases n <;> simp [getTokenDetails]

/-- JavaScript strings are embedded as their character lists, so that the
character-level operations of the source (split, trim, toLowerCase)
evaluate inside the logic. -/
abbrev JsString := List Char

/-- `String.prototype.split(sep)` for a one-character separator, as used at
src/index.js line 35: splitting the empty string yields one empty piece,
and a separator at either end yields an empty piece there. -/
def jsSplit (sep : Char) : JsString → List JsString
  | [] => [[]]
  | c :: cs =>
    match jsSplit sep cs with
    | [] => [[c]]
    | p :: ps => if c = sep then [] :: p :: ps else (c :: p) :: ps

/-- `String.prototype.trim()` (src/index.js line 36): strip whitespace from
both ends. -/
def jsTrim (s : JsString) : JsString :=
  ((s.dropWhile Char.isWhitespace).reverse.dropWhile Char.isWhitespace).reverse

/-- `String.prototype.toLowerCase()` (src/index.js lines 36, 42, 115). -/
def jsToLower (s : JsString) : JsString := s.map Char.toLower

/-- `addr.startsWith("0x")` (src/index.js line 37). -/
def startsWith0x : JsString → Bool
  | '0' :: 'x' :: _ => true
  | _ => false

/-- `customTokenAddresses` (src/index.js lines 34-37): split the
`CUSTOM_TOKENS` value on commas, trim and lowercase each entry, and keep
the entries of length 42 that start with `0x`. -/
def customTokenAddresses (customTokensEnv : JsString) : List JsString :=
  ((jsSplit ',' customTokensEnv).map (fun a => jsToLower (jsTrim a))).filter
    (fun a => a.length = 42 && startsWith0x a)

/-- Modelled from the spec's words for comparison with the source filter: a
well-formed token address is 42 characters, `0x`-prefixed, and hexadecimal
after the prefix. -/
def isWellFormedTokenAddress (a : JsString) : Bool :=
  a.length = 42 && startsWith0x a &&
    (a.drop 2).all (fun c =>
      c.isDigit || ('a' ≤ c && c ≤ 'f') || ('A' ≤ c && c ≤ 'F'))

/-- A 42-character `0x`-prefixed entry made of non-hexadecimal characters. -/
def badToken : JsString := ("0xzzzzzzzzzzzzzzzzzzzzzzzzzzzzzzzzzzzzzzzz").data

/-- Counterexample to claim C6: the source filter checks only length and the
`0x` prefix, so `badToken`, which contains the non-hexadecimal character
`z` forty times, is kept by `customTokenAddresses`. -/
theorem customTokenAddresses_keeps_nonhex :
    customTokenAddresses badToken = [badToken] ∧
    isWellFormedTokenAddress badToken = false := by decide

/-- Claim C6 as amended: the parsed list contains exactly the trimmed,
lowercased entries of the comma-separated value whose length is 42 and
which start with `0x`; hexadecimality of the remaining characters is not
checked. -/
theorem customTokenAddresses_mem_iff (env a : JsString) :
    a ∈ customTokenAddresses env ↔
      ∃ raw, raw ∈ jsSplit ',' env ∧ a = jsToLower (jsTrim raw) ∧
        a.length = 42 ∧ startsWith0x a = true := by
  simp only [customTokenAddresses, List.mem_filter, List.mem_map,
    Bool.and_eq_true, decide_eq_true_eq]
  constructor
  · rintro ⟨⟨raw, hraw, rfl⟩, hlen, hpre⟩
    exact ⟨raw, hraw, rfl, hlen, hpre⟩
  · rintro ⟨raw, hraw, rfl, hlen, hpre⟩
    exact ⟨⟨raw, hraw, rfl⟩, hlen, hpre⟩

/-- A transfer log entry as consumed by `handleIncomingTransfer`
(src/index.js lines 109-129): the fields the handler reads. -/
structure LogEntry where
  transactionHash : JsString
  address : JsString
  blockNumber : Nat
deriving DecidableEq

/-- The monitor's mutable state (src/index.js lines 107 and 131): the
`processedTxs` set (embedded as a list of its elements) and the
`lastCheckedBlock` checkpoint. -/
structure MonitorState where
  lastCheckedBlock : Nat
  processedTxs : List JsString
deriving DecidableEq

/-- The observable actions of one monitor, in program order: marking a
transaction hash processed, resolving token details, the fixed settling
delay, invoking the sweep, and advancing the checkpoint. -/
inductive Event where
  | markProcessed (txHash : JsString)
  | resolveDetails (tokenAddress : JsString)
  | settleDelay (ms : Nat)
  | sweepInvoke (tokenAddress : JsString)
  | checkpointAdvanced (blockNumber : Nat)
deriving DecidableEq

/-- `handleIncomingTransfer` (src/index.js lines 109-129): return early when
the hash is already in `processedTxs`; otherwise add it (before the first
awaited step, line 113), resolve the token's details, wait the 60-second
settling delay, and invoke `transferToken` for the lowercased token
address. -/
def handleIncomingTransfer (s : MonitorState) (log : LogEntry) :
    MonitorState × List Event :=
  if log.transactionHash ∈ s.processedTxs then (s, [])
  else
    ({ s with processedTxs := log.transactionHash :: s.processedTxs },
      [Event.markProcessed log.transactionHash,
        Event.resolveDetails (jsToLower log.address),
        Event.settleDelay 60000,
        Event.sweepInvoke (jsToLower log.address)])

/-- The sweep invocations recorded in an event list, by token address. -/
def sweepTokens (es : List Event) : List JsString :=
  es.filterMap (fun e =>
    match e with
    | Event.sweepInvoke a => some a
    | _ => none)

/-- Claim C2: handling two log entries with the same `transactionHash` in
sequence sweeps at most once — the hash enters `processedTxs` before any
awaited step, so the second invocation returns immediately, with no
detail resolution, no sweep, and no state change. -/
theorem handleIncomingTransfer_idempotent (s : MonitorState) (l1 l2 : LogEntry)
    (h : l1.transactionHash = l2.transactionHash) :
    (handleIncomingTransfer (handleIncomingTransfer s l1).1 l2).2 = [] ∧
    (handleIncomingTransfer (handleIncomingTransfer s l1).1 l2).1 =
      (handleIncomingTransfer s l1).1 ∧
    (sweepTokens ((handleIncomingTransfer s l1).2 ++
      (handleIncomingTransfer (handleIncomingTransfer s l1).1 l2).2)).length ≤ 1 := by
  by_cases hmem : l1.transactionHash ∈ s.processedTxs
  · have hmem2 : l2.transactionHash ∈ s.processedTxs := h ▸ hmem
    simp [handleIncomingTransfer, hmem, hmem2, sweepTokens]
  · have hmem2 : l2.transactionHash ∈
        l1.transactionHash :: s.processedTxs := by
      rw [← h]; exact List.mem_cons_self _ _
    simp [handleIncomingTransfer, hmem, hmem2, sweepTokens]

/-- A concrete log entry. -/
def sampleLog1 : LogEntry :=
  { transactionHash := ("0xdead").data, address := ("0xAAA").data,
    blockNumber := 7 }

/-- A log entry with `sampleLog1`'s transaction hash but another token
contract address. -/
def sampleLog2 : LogEntry :=
  { transactionHash := ("0xdead").data, address := ("0xBBB").data,
    blockNumber := 7 }

/-- An empty monitor state checkpointed at block 3. -/
def sampleState : MonitorState := { lastCheckedBlock := 3, processedTxs := [] }

/-- Witness for C2: two concrete entries sharing a transaction hash. -/
theorem handleIncomingTransfer_idempotent_witness :
    (handleIncomingTransfer (handleIncomingTransfer sampleState sampleLog1).1
      sampleLog2).2 = [] ∧
    (handleIncomingTransfer (handleIncomingTransfer sampleState sampleLog1).1
      sampleLog2).1 = (handleIncomingTransfer sampleState sampleLog1).1 ∧
    (sweepTokens ((handleIncomingTransfer sampleState sampleLog1).2 ++
      (handleIncomingTransfer (handleIncomingTransfer sampleState sampleLog1).1
        sampleLog2).2)).length ≤ 1 :=
  handleIncomingTransfer_idempotent sampleState sampleLog1 sampleLog2 rfl

/-- Claim C10: the dedup ledger is keyed by `transactionHash` alone — for a
fresh hash, two entries sharing it but naming different token contracts
lead to the first being handled in full and the second skipped entirely,
so exactly the first entry's token is swept. -/
theorem dedup_ignores_token_address (s : MonitorState) (l1 l2 : LogEntry)
    (hhash : l1.transactionHash = l2.transactionHash)
    (haddr : l1.address ≠ l2.address)
    (hnew : l1.transactionHash ∉ s.processedTxs) :
    (handleIncomingTransfer (handleIncomingTransfer s l1).1 l2).2 = [] ∧
    sweepTokens ((handleIncomingTransfer s l1).2 ++
      (handleIncomingTransfer (handleIncomingTransfer s l1).1 l2).2) =
      [jsToLower l1.address] := by
  have hmem2 : l2.transactionHash ∈ l1.transactionHash :: s.processedTxs := by
    rw [← hhash]; exact List.mem_cons_self _ _
  simp [handleIncomingTransfer, hnew, hmem2, sweepTokens]

/-- Witness for C10: the two concrete entries share the hash `0xdead` but
name the token contracts `0xAAA` and `0xBBB`; only the first is swept. -/
theorem dedup_ignores_token_address_witness :
    (handleIncomingTransfer (handleIncomingTransfer sampleState sampleLog1).1
      sampleLog2).2 = [] ∧
    sweepTokens ((handleIncomingTransfer sampleState sampleLog1).2 ++
      (handleIncomingTransfer (handleIncomingTransfer sampleState sampleLog1).1
        sampleLog2).2) = [jsToLower sampleLog1.address] :=
  dedup_ignores_token_address sampleState sampleLog1 sampleLog2 rfl
    (by decide) (by decide)

/-- Oracle for the RPC calls of one polling tick (src/index.js lines
138-160): the `getBlockNumber` read and, for a block range, the `getLogs`
query; a field is `none` exactly when the call throws. -/
structure TickOracle where
  getBlockNumber : Option Nat
  getLogs : Nat → Nat → Option (List LogEntry)

/-- What one polling tick produced: the resulting monitor state, the
ordered events, the block range actually queried (if the tick got as far
as `getLogs`), and the block the checkpoint advanced to (if it did). -/
structure TickOut where
  state : MonitorState
  events : List Event
  queried : Option (Nat × Nat)
  advancedTo : Option Nat

/-- The `for (const log of logs)` loop of the tick (src/index.js lines
152-154): each entry fed to `handleIncomingTransfer` in order, the state
threaded through. -/
def handleLogs : MonitorState → List LogEntry → MonitorState × List Event
  | s, [] => (s, [])
  | s, l :: ls =>
    let p := handleIncomingTransfer s l
    let q := handleLogs p.1 ls
    (q.1, p.2 ++ q.2)

/-- The `setInterval` polling callback (src/index.js lines 138-160): read
the current height; when it exceeds `lastCheckedBlock`, query logs over
`[lastCheckedBlock + 1, currentBlock]`, handle each, then advance the
checkpoint; any thrown error is swallowed by the `catch` (line 157),
leaving the state untouched. -/
def pollTick (o : TickOracle) (s : MonitorState) : TickOut :=
  match o.getBlockNumber with
  | none => { state := s, events := [], queried := none, advancedTo := none }
  | some currentBlock =>
    if s.lastCheckedBlock < currentBlock then
      match o.getLogs (s.lastCheckedBlock + 1) currentBlock with
      | none =>
        { state := s, events := []
          queried := some (s.lastCheckedBlock + 1, currentBlock)
          advancedTo := none }
      | some logs =>
        let p := handleLogs s logs
        { state := { p.1 with lastCheckedBlock := currentBlock }
          events := p.2 ++ [Event.checkpointAdvanced currentBlock]
          queried := some (s.lastCheckedBlock + 1, currentBlock)
          advancedTo := some currentBlock }
    else { state := s, events := [], queried := none, advancedTo := none }

/-- A sequence of NON-OVERLAPPING polling ticks of one monitor, each fed
by its own oracle, the state threaded from tick to tick: this is the
schedule in which every callback runs to completion before the next one
fires.  `setInterval` does not guarantee that schedule (a callback with a
fresh log takes at least the 60-second settling delay against the
15-second cadence); overlapping callbacks are modelled below by
`tickResume`/`runSchedule`, and the checkpoint invariants proved over
`runTicks` hold only of this non-overlapping case. -/
def runTicks : MonitorState → List TickOracle → List TickOut
  | _, [] => []
  | s, o :: os => pollTick o s :: runTicks (pollTick o s).state os

lemma handleIncomingTransfer_lastChecked (s : MonitorState) (l : LogEntry) :
    ((handleIncomingTransfer s l).1).lastCheckedBlock = s.lastCheckedBlock := by
  unfold handleIncomingTransfer
  split <;> rfl

lemma handleLogs_lastChecked (logs : List LogEntry) (s : MonitorState) :
    ((handleLogs s logs).1).lastCheckedBlock = s.lastCheckedBlock := by
  induction logs generalizing s with
  | nil => rfl
  | cons l ls ih => simp [handleLogs, ih, handleIncomingTransfer_lastChecked]

lemma pollTick_mono (o : TickOracle) (s : MonitorState) :
    s.lastCheckedBlock ≤ ((pollTick o s).state).lastCheckedBlock := by
  unfold pollTick
  cases o.getBlockNumber with
  | none => exact Nat.le_refl _
  | some cur =>
    by_cases hlt : s.lastCheckedBlock < cur
    · simp only [hlt, if_true]
      cases o.getLogs (s.lastCheckedBlock + 1) cur with
      | none => exact Nat.le_refl _
      | some logs => exact Nat.le_of_lt hlt
    · simp only [hlt, if_false]
      exact Nat.le_refl _

lemma pollTick_queried_from (o : TickOracle) (s : MonitorState) (f t : Nat) :
    (pollTick o s).queried = some (f, t) → f = s.lastCheckedBlock + 1 := by
  unfold pollTick
  cases o.getBlockNumber with
  | none => simp
  | some cur =>
    by_cases hlt : s.lastCheckedBlock < cur
    · simp only [hlt, if_true]
      cases o.getLogs (s.lastCheckedBlock + 1) cur with
      | none =>
        intro h
        simp only [Option.some.injEq, Prod.mk.injEq] at h
        omega
      | some logs =>
        intro h
        simp only [Option.some.injEq, Prod.mk.injEq] at h
        omega
    · simp [hlt]

lemma pollTick_advancedTo (o : TickOracle) (s : MonitorState) (c : Nat) :
    (pollTick o s).advancedTo = some c →
    ((pollTick o s).state).lastCheckedBlock = c := by
  unfold pollTick
  cases o.getBlockNumber with
  | none => simp
  | some cur =>
    by_cases hlt : s.lastCheckedBlock < cur
    · simp only [hlt, if_true]
      cases o.getLogs (s.lastCheckedBlock + 1) cur with
      | none => simp
      | some logs =>
        intro h
        simp only [Option.some.injEq] at h
        simp [← h]
    · simp [hlt]

lemma runTicks_queried_gt (os : List TickOracle) (s : MonitorState)
    (x : TickOut) (hx : x ∈ runTicks s os) (f t : Nat)
    (hq : x.queried = some (f, t)) : s.lastCheckedBlock < f := by
  induction os generalizing s with
  | nil => simp [runTicks] at hx
  | cons o os ih =>
    simp only [runTicks, List.mem_cons] at hx
    rcases hx with rfl | hx
    · have := pollTick_queried_from o s f t hq
      omega
    · have h1 := ih (pollTick o s).state hx
      have h2 := pollTick_mono o s
      omega

/-- The suspension points of one polling callback (src/index.js lines
138-160): parked at the height query (line 140); parked at the log query
(line 146) with the `currentBlock` and `fromBlock` it captured; suspended
inside `handleIncomingTransfer`'s awaited steps (lines 116, 127, 128)
with the batch's remaining entries still pending; or finished (normally,
through the no-new-blocks branch, or through the catch at line 157). -/
inductive TickPhase where
  | awaitingHeight
  | awaitingLogs (currentBlock fromBlock : Nat)
  | inHandler (currentBlock : Nat) (pending : List LogEntry)
  | finished
deriving DecidableEq

/-- The synchronous remainder of a tick's `for` loop (src/index.js lines
152-155) once its current entry is done: already-processed entries are
skipped without awaiting (the early return at line 112 precedes every
await of `handleIncomingTransfer`, and awaiting an already-resolved
promise yields only a microtask boundary, which timer callbacks cannot
interleave), the first fresh entry is marked processed and its handler
suspends, and a drained batch writes `lastCheckedBlock = currentBlock`
(line 155) and ends the callback. -/
def drainLogs (currentBlock : Nat) :
    MonitorState → List LogEntry → MonitorState × TickPhase
  | s, [] => ({ s with lastCheckedBlock := currentBlock }, TickPhase.finished)
  | s, l :: ls =>
    if l.transactionHash ∈ s.processedTxs then drainLogs currentBlock s ls
    else
      ({ s with processedTxs := l.transactionHash :: s.processedTxs },
        TickPhase.inHandler currentBlock ls)

/-- One event-loop turn of one polling callback: resume it at its
suspension point against the shared monitor state and run to its next
await or its end.  A handler's successive awaits (detail lookups, the
60-second settling delay, the sweep) read and write no monitor state, so
they are collapsed into the one resumption that completes the handler;
every access to `lastCheckedBlock` and `processedTxs` happens at the
boundaries this function models. -/
def tickResume (o : TickOracle) (s : MonitorState) :
    TickPhase → MonitorState × TickPhase
  | TickPhase.awaitingHeight =>
    match o.getBlockNumber with
    | none => (s, TickPhase.finished)
    | some currentBlock =>
      if s.lastCheckedBlock < currentBlock then
        (s, TickPhase.awaitingLogs currentBlock (s.lastCheckedBlock + 1))
      else (s, TickPhase.finished)
  | TickPhase.awaitingLogs currentBlock fromBlock =>
    match o.getLogs fromBlock currentBlock with
    | none => (s, TickPhase.finished)
    | some logs => drainLogs currentBlock s logs
  | TickPhase.inHandler currentBlock pending => drainLogs currentBlock s pending
  | TickPhase.finished => (s, TickPhase.finished)

/-- Resume the i-th of several concurrently live callbacks: `setInterval`
fires a new callback every 15 seconds whether or not earlier ones have
finished, so several can be suspended at once, sharing `lastCheckedBlock`
and `processedTxs`. -/
def stepTick (os : List TickOracle) (s : MonitorState) (ps : List TickPhase)
    (i : Nat) : MonitorState × List TickPhase :=
  match os[i]?, ps[i]? with
  | some o, some p =>
    let r := tickResume o s p
    (r.1, ps.set i r.2)
  | _, _ => (s, ps)

/-- Run a schedule of event-loop turns, each entry naming the callback
resumed next, recording shared state and phases before every turn and at
the end. -/
def runSchedule (os : List TickOracle) :
    MonitorState → List TickPhase → List Nat →
      List (MonitorState × List TickPhase)
  | s, ps, [] => [(s, ps)]
  | s, ps, i :: rest =>
    let r := stepTick os s ps i
    (s, ps) :: runSchedule os r.1 r.2 rest

lemma drainLogs_unfinished (currentBlock : Nat) (logs : List LogEntry) :
    ∀ s : MonitorState,
      (drainLogs currentBlock s logs).2 ≠ TickPhase.finished →
      ((drainLogs currentBlock s logs).1).lastCheckedBlock =
        s.lastCheckedBlock := by
  induction logs with
  | nil =>
    intro s h
    exact absurd rfl h
  | cons l ls ih =>
    intro s h
    by_cases hmem : l.transactionHash ∈ s.processedTxs
    · have he : drainLogs currentBlock s (l :: ls) =
          drainLogs currentBlock s ls := by
        simp [drainLogs, hmem]
      rw [he] at h ⊢
      exact ih s h
    · simp [drainLogs, hmem]

/-- Claim C4 as amended: a polling callback writes the checkpoint only at
the event-loop turn that completes its batch, and `pollTick`'s event
order puts the checkpoint advance after all the tick's entries; when
callbacks do not overlap — each tick's batch fully drained before the
next tick fires, the schedule `runTicks` models — `lastCheckedBlock` is
monotonically non-decreasing across the sequence and no later tick
queries a block at or below a point already advanced past.  With
overlapping callbacks those two sequence invariants fail (see the
counterexample). -/
theorem lastCheckedBlock_checkpoint_invariants :
    (∀ (o : TickOracle) (s : MonitorState),
      s.lastCheckedBlock ≤ ((pollTick o s).state).lastCheckedBlock) ∧
    (∀ (o : TickOracle) (s : MonitorState) (cur : Nat) (logs : List LogEntry),
      o.getBlockNumber = some cur → s.lastCheckedBlock < cur →
      o.getLogs (s.lastCheckedBlock + 1) cur = some logs →
      (pollTick o s).events =
        (handleLogs s logs).2 ++ [Event.checkpointAdvanced cur]) ∧
    (∀ (s : MonitorState) (os : List TickOracle),
      List.Pairwise
        (fun a b => ∀ c, a.advancedTo = some c →
          ∀ f t, b.queried = some (f, t) → c < f)
        (runTicks s os)) ∧
    (∀ (o : TickOracle) (s : MonitorState) (p : TickPhase),
      (tickResume o s p).2 ≠ TickPhase.finished →
      ((tickResume o s p).1).lastCheckedBlock = s.lastCheckedBlock) := by
  refine ⟨pollTick_mono, ?_, ?_, ?_⟩
  · intro o s cur logs hbn hlt hlogs
    unfold pollTick
    rw [hbn]
    simp only [hlt, if_true]
    rw [hlogs]
  · intro s os
    induction os generalizing s with
    | nil => exact List.Pairwise.nil
    | cons o os ih =>
      refine List.pairwise_cons.mpr ⟨?_, ih (pollTick o s).state⟩
      intro b hb c hadv f t hq
      have h1 := pollTick_advancedTo o s c hadv
      have h2 := runTicks_queried_gt os (pollTick o s).state b hb f t hq
      omega
  · intro o s p h
    cases p with
    | awaitingHeight =>
      simp only [tickResume]
      cases o.getBlockNumber with
      | none => rfl
      | some cur => by_cases hlt : s.lastCheckedBlock < cur <;> simp [hlt]
    | awaitingLogs cur fromB =>
      simp only [tickResume] at h ⊢
      cases hl : o.getLogs fromB cur with
      | none => rfl
      | some logs =>
        rw [hl] at h
        exact drainLogs_unfinished cur logs s h
    | inHandler cur pending => exact drainLogs_unfinished cur pending s h
    | finished => rfl

/-- A fresh transfer log at block 15, delivered to two overlapping
ticks whose queried ranges both cover it. -/
def freshLog : LogEntry :=
  { transactionHash := ("0xfeed").data, address := ("0xCCC").data,
    blockNumber := 15 }

/-- Oracle of the first overlapping tick: height 20, one fresh log. -/
def tickOracleA : TickOracle :=
  { getBlockNumber := some 20, getLogs := fun _ _ => some [freshLog] }

/-- Oracle of the next tick, 15 seconds later: the chain has reached
block 25 and its range (still from block 11, since the first tick has not
written yet) re-delivers the same log. -/
def tickOracleB : TickOracle :=
  { getBlockNumber := some 25, getLogs := fun _ _ => some [freshLog] }

/-- Oracle of a later tick, after both earlier callbacks ended. -/
def tickOracleC : TickOracle :=
  { getBlockNumber := some 26, getLogs := fun _ _ => some [] }

/-- Shared monitor state when the overlap begins: checkpoint 10, empty
ledger. -/
def overlapStart : MonitorState := { lastCheckedBlock := 10, processedTxs := [] }

/-- The event-loop order of the overlap: tick A resolves its height query
and then its log query, marking the fresh log and suspending in its
60-second handler; tick B fires at the 15-second cadence, reads the still
unwritten checkpoint 10, sees height 25, finds only the already-processed
log, so its batch drains synchronously and it writes checkpoint 25; tick
A's handler then completes and writes its stale `currentBlock` 20; tick C
fires and reads the lowered checkpoint. -/
def overlapSchedule : List Nat := [0, 0, 1, 1, 0, 2]

/-- The recorded run of the overlapping schedule. -/
def overlapRun : List (MonitorState × List TickPhase) :=
  runSchedule [tickOracleA, tickOracleB, tickOracleC] overlapStart
    [TickPhase.awaitingHeight, TickPhase.awaitingHeight,
      TickPhase.awaitingHeight]
    overlapSchedule

/-- The shared checkpoint before each event-loop turn and at the end. -/
def overlapCheckpoints : List Nat :=
  overlapRun.map (fun r => r.1.lastCheckedBlock)

/-- The callbacks' phases at the end of the overlapping run. -/
def overlapFinalPhases : List TickPhase :=
  (overlapRun.getLastD (overlapStart, [])).2

/-- Counterexample to claim C4: under the overlapping schedule the shared
`lastCheckedBlock` goes 10, …, 25, 20 — it DECREASES when tick A's late
write lands after tick B advanced to 25 — and tick C, fired after B had
advanced past every block up to 25, is parked on a log query from block
21, re-polling blocks 21-25.  So across this sequence of ticks of one
monitor the checkpoint is not monotonically non-decreasing and an
advanced-past range is polled again. -/
theorem overlapping_ticks_decrease_checkpoint :
    overlapCheckpoints = [10, 10, 10, 10, 25, 20, 20] ∧
    overlapFinalPhases =
      [TickPhase.finished, TickPhase.finished,
        TickPhase.awaitingLogs 26 21] := by
  exact ⟨by decide, by decide⟩

/-- Claim C3: when a tick's block-height query fails, or its log query
fails over a non-empty range, the `catch` swallows the error: the state
(checkpoint and ledger) is unchanged, no events occur, and a subsequent
tick therefore queries the same block range as this one would have. -/
theorem pollTick_failure_swallowed (o : TickOracle) (s : MonitorState)
    (h : o.getBlockNumber = none ∨
      ∃ cur, o.getBlockNumber = some cur ∧ s.lastCheckedBlock < cur ∧
        o.getLogs (s.lastCheckedBlock + 1) cur = none) :
    (pollTick o s).state = s ∧ (pollTick o s).events = [] ∧
    ∀ o2 : TickOracle,
      (pollTick o2 (pollTick o s).state).queried = (pollTick o2 s).queried := by
  have hs : (pollTick o s).state = s ∧ (pollTick o s).events = [] := by
    rcases h with h | ⟨cur, hbn, hlt, hlogs⟩
    · simp [pollTick, h]
    · unfold pollTick
      rw [hbn]
      simp [hlt, hlogs]
  exact ⟨hs.1, hs.2, fun o2 => by rw [hs.1]⟩

/-- A concrete tick oracle whose height query succeeds but whose log query
always throws. -/
def failingLogsOracle : TickOracle :=
  { getBlockNumber := some 5, getLogs := fun _ _ => none }

/-- Witness for C3: over `sampleState` (checkpoint 3), the failing log
query leaves the tick without effect. -/
theorem pollTick_failure_swallowed_witness :
    (pollTick failingLogsOracle sampleState).state = sampleState ∧
    (pollTick failingLogsOracle sampleState).events = [] ∧
    ∀ o2 : TickOracle,
      (pollTick o2 (pollTick failingLogsOracle sampleState).state).queried =
        (pollTick o2 sampleState).queried :=
  pollTick_failure_swallowed failingLogsOracle sampleState
    (Or.inr ⟨5, rfl, by decide, rfl⟩)

/-- A JavaScript error as inspected by the `monitorAndTransfer` catch
block (src/index.js lines 174-190): its `code` and `message`. -/
structure JsError where
  code : JsString
  message : JsString
deriving DecidableEq

/-- `String.prototype.includes(pat)` (src/index.js line 177). -/
def jsIncludes (pat : JsString) : JsString → Bool
  | [] => pat.isEmpty
  | c :: rest => pat.isPrefixOf (c :: rest) || jsIncludes pat rest

/-- The malformed-credential test of the catch block (src/index.js lines
176-178): `err.code === "INVALID_ARGUMENT"` and the message containing
`"invalid BytesLike value"`. -/
def isInvalidPrivateKeyError (e : JsError) : Bool :=
  e.code = ("INVALID_ARGUMENT").data &&
    jsIncludes (("invalid BytesLike value").data) e.message

/-- What the catch block of `monitorAndTransfer` does with a startup-phase
error: report the malformed credential with no restart, or schedule a
restart after a delay. -/
inductive FatalAction where
  | reportInvalidKey
  | restartAfterMs (delayMs : Nat)
deriving DecidableEq

/-- The catch block (src/index.js lines 174-190): the malformed-credential
case is only reported; every other startup error schedules
`monitorAndTransfer` to run again for the same network after 30000 ms. -/
def monitorCatch (e : JsError) : FatalAction :=
  if isInvalidPrivateKeyError e then FatalAction.reportInvalidKey
  else FatalAction.restartAfterMs 30000

/-- The state a freshly (re)started `monitorAndTransfer` run begins with:
a new empty `processedTxs` set (src/index.js line 107) and a checkpoint
re-read from the chain (line 131). -/
def initialMonitorState (initialBlock : Nat) : MonitorState :=
  { lastCheckedBlock := initialBlock, processedTxs := [] }

/-- Claim C7: a startup error matching the malformed-credential test is
reported without a restart (terminal for that network); any other startup
error schedules a restart of `monitorAndTransfer` after exactly 30
seconds, and a restarted run begins with a fresh empty ledger and a fresh
checkpoint. -/
theorem monitorCatch_restart_policy (e : JsError) :
    (isInvalidPrivateKeyError e = true →
      monitorCatch e = FatalAction.reportInvalidKey) ∧
    (isInvalidPrivateKeyError e = false →
      monitorCatch e = FatalAction.restartAfterMs 30000) ∧
    (∀ b : Nat, (initialMonitorState b).processedTxs = [] ∧
      (initialMonitorState b).lastCheckedBlock = b) := by
  refine ⟨fun h => ?_, fun h => ?_, fun b => ⟨rfl, rfl⟩⟩
  · simp [monitorCatch, h]
  · simp [monitorCatch, h]

/-- The startup steps of `monitorAndTransfer` after the wallet binding, in
program order. -/
inductive StartupStep where
  | captureInitialBlock
  | registerPollingInterval (intervalMs : Nat)
  | customTokenPass (tokens : List JsString)
deriving DecidableEq

/-- The polling cadence passed to `setInterval` (src/index.js line 160). -/
def pollIntervalMs : Nat := 15000

/-- The program order of `monitorAndTransfer`'s startup (src/index.js):
capture the initial `lastCheckedBlock` (line 131), register the polling
`setInterval` (lines 138-160), and only then run the one-shot
custom-token pass (lines 162-173). -/
def monitorStartupSequence (tokens : List JsString) : List StartupStep :=
  [StartupStep.captureInitialBlock,
    StartupStep.registerPollingInterval pollIntervalMs,
    StartupStep.customTokenPass tokens]

/-- The instant the k-th polling tick fires, counted from the
`setInterval` registration: `setInterval(cb, 15000)` first fires after one
full interval. -/
def tickFireTime (k : Nat) : Nat := pollIntervalMs * (k + 1)

/-- The instant the sequential custom-token pass (src/index.js lines
169-172) completes, counted from its start right after the interval
registration: each token's handling (detail resolution, balance read,
transfer submission, confirmation) runs to completion before the next
begins, while the registered timer keeps firing during its awaited
steps. -/
def customTokenPassEnd (tokenDurations : List Nat) : Nat :=
  tokenDurations.foldl (fun a d => a + d) 0

/-- Counterexample to claim C8: `setInterval` is registered before the
custom-token pass begins, so for a pass whose single token takes 20
seconds (say, awaiting the transfer confirmation) the first tick fires —
and can process logs — at 15 seconds, before the pass completes. -/
theorem customTokenPass_outlives_first_tick :
    monitorStartupSequence [badToken] =
      [StartupStep.captureInitialBlock,
        StartupStep.registerPollingInterval 15000,
        StartupStep.customTokenPass [badToken]] ∧
    tickFireTime 0 < customTokenPassEnd [20000] := by
  exact ⟨rfl, by decide⟩

/-- Claim C8 as amended: the custom-token pass is part of the Starting
phase but begins only after the polling interval is registered, and it
completes before a polling tick's log processing only when its total
duration is at most one 15-second polling interval (in which case it
completes before every tick fires). -/
theorem customTokenPass_after_interval_registration :
    (∀ tokens : List JsString,
      monitorStartupSequence tokens =
        [StartupStep.captureInitialBlock] ++
          [StartupStep.registerPollingInterval pollIntervalMs] ++
          [StartupStep.customTokenPass tokens]) ∧
    (∀ durations : List Nat,
      customTokenPassEnd durations ≤ pollIntervalMs →
      ∀ k : Nat, customTokenPassEnd durations ≤ tickFireTime k) := by
  refine ⟨fun tokens => rfl, fun d hd k => ?_⟩
  have h : pollIntervalMs ≤ tickFireTime k := by
    simp only [tickFireTime, Nat.mul_succ]
    exact Nat.le_add_left _ _
  exact le_trans hd h
